import Mathlib

/-!
Verification development for the raidcom SPM IOLimit collection pipeline
(scripts 4_limit.py, 5_io_v36_multi.py, 6_io_multi_.py, 6_iolimit_v36.py).
Python strings are modelled as lists of characters, external commands as an
environment function from a structured command type to an exit code and a
captured stdout, and Python exceptions as an explicit error sum where
SystemExit is distinguished from ordinary Exception subclasses.
-/

set_option maxRecDepth 4000

/-- Whitespace characters recognised by the Python str.strip and str.split
methods, restricted to the ASCII range used by the pipeline. -/
def isSpaceCh (c : Char) : Bool :=
  c = ' ' || c = '\t' || c = '\n' || c = '\r' || c = '\x0b' || c = '\x0c'

/-- ASCII decimal digit test, as used by the Python str.isdigit calls. -/
def isDigitCh (c : Char) : Bool := '0' ≤ c && c ≤ '9'

/-- ASCII uppercase letter test, for the port identifier pattern. -/
def isUpperCh (c : Char) : Bool := 'A' ≤ c && c ≤ 'Z'

/-- ASCII lowercase hex digit test, for the WWPN pattern [0-9a-fa-f]. -/
def isHexL (c : Char) : Bool := ('0' ≤ c && c ≤ '9') || ('a' ≤ c && c ≤ 'f')

/-- Word character for the regex word boundary in the serial number pattern. -/
def isWordCh (c : Char) : Bool :=
  isDigitCh c || isUpperCh c || ('a' ≤ c && c ≤ 'z') || c = '_'

/-- Model of Python str.strip with no argument: remove leading and trailing
whitespace. -/
def stripChars (l : List Char) : List Char :=
  ((l.dropWhile isSpaceCh).reverse.dropWhile isSpaceCh).reverse

/-- Model of Python str.split with a one character separator: splits at every
occurrence of the separator and keeps empty pieces, so the result is never
the empty list. -/
def splitOnChar (sep : Char) : List Char → List (List Char)
  | [] => [[]]
  | c :: cs =>
    if c = sep then [] :: splitOnChar sep cs
    else
      match splitOnChar sep cs with
      | [] => [[c]]
      | t :: ts => (c :: t) :: ts

/-- Helper for wsSplit: accumulates the current token in reverse. -/
def wsSplitAux (cur : List Char) : List Char → List (List Char)
  | [] => if cur.isEmpty then [] else [cur.reverse]
  | c :: cs =>
    if isSpaceCh c then
      if cur.isEmpty then wsSplitAux [] cs else cur.reverse :: wsSplitAux [] cs
    else wsSplitAux (c :: cur) cs

/-- Model of Python str.split with no argument: split on whitespace runs and
drop empty tokens. -/
def wsSplit (l : List Char) : List (List Char) := wsSplitAux [] l

/-- Model of Python str.isdigit restricted to ASCII: nonempty and all digits. -/
def isdigitStr (s : List Char) : Bool := !s.isEmpty && s.all isDigitCh

/-- Numeric value of a digit string, the model of Python int on a string that
passed isdigit. -/
def toNatDigits (s : List Char) : ℕ :=
  s.foldl (fun a c => a * 10 + (c.toNat - 48)) 0

/-- Substring test, the model of the Python expression x in y on strings and
of re.search with a literal pattern. -/
def isInfixB (pat : List Char) (s : List Char) : Bool :=
  match s with
  | [] => pat.isEmpty
  | _ :: cs => pat.isPrefixOf s || isInfixB pat cs

/-- Model of re.findall with a literal pattern: the list of non overlapping
occurrences, scanning from the left. -/
def findLiteral (pat : List Char) (l : List Char) : List (List Char) :=
  match l with
  | [] => []
  | c :: cs =>
    if h : pat ≠ [] ∧ pat.isPrefixOf (c :: cs) then
      pat :: findLiteral pat ((c :: cs).drop pat.length)
    else findLiteral pat cs
termination_by l.length
decreasing_by
  · simp only [List.length_drop, List.length_cons]
    have : pat.length ≠ 0 := by
      intro hlen; exact h.1 (List.eq_nil_of_length_eq_zero hlen)
    omega
  · simp [Nat.lt_succ_self]

/-- Model of re.findall for the port identifier pattern CL digit dash
uppercase dash uppercase, non overlapping, scanning from the left. -/
def findPortIds : List Char → List (List Char)
  | 'C' :: 'L' :: d :: '-' :: u1 :: '-' :: u2 :: rest =>
    if isDigitCh d && isUpperCh u1 && isUpperCh u2 then
      ['C', 'L', d, '-', u1, '-', u2] :: findPortIds rest
    else findPortIds ('L' :: d :: '-' :: u1 :: '-' :: u2 :: rest)
  | _ :: cs => findPortIds cs
  | [] => []

/-- Model of re.findall for the 16 lowercase hex digit WWPN pattern, non
overlapping, scanning from the left. -/
def findWwpns : List Char → List (List Char)
  | c1 :: c2 :: c3 :: c4 :: c5 :: c6 :: c7 :: c8 ::
    c9 :: c10 :: c11 :: c12 :: c13 :: c14 :: c15 :: c16 :: rest =>
    if ([c1, c2, c3, c4, c5, c6, c7, c8,
         c9, c10, c11, c12, c13, c14, c15, c16]).all isHexL then
      [c1, c2, c3, c4, c5, c6, c7, c8,
       c9, c10, c11, c12, c13, c14, c15, c16] :: findWwpns rest
    else
      findWwpns (c2 :: c3 :: c4 :: c5 :: c6 :: c7 :: c8 ::
                 c9 :: c10 :: c11 :: c12 :: c13 :: c14 :: c15 :: c16 :: rest)
  | _ => []

/-- Word boundary on the left of a candidate match: start of string or a non
word character before it. -/
def boundaryBefore (prev : Option Char) : Bool :=
  match prev with
  | none => true
  | some p => !isWordCh p

/-- Word boundary on the right of a candidate match: end of string or a non
word character after it. -/
def boundaryAfter (rest : List Char) : Bool :=
  match rest with
  | [] => true
  | r :: _ => !isWordCh r

/-- Model of re.findall for the serial number pattern: word boundary, the
digit 5, four more digits, word boundary. The prev argument carries the
character before the current position for the left boundary test. -/
def findSerials (prev : Option Char) : List Char → List (List Char)
  | c :: d1 :: d2 :: d3 :: d4 :: rest =>
    if c = '5' && isDigitCh d1 && isDigitCh d2 && isDigitCh d3 && isDigitCh d4
       && boundaryBefore prev && boundaryAfter rest then
      [c, d1, d2, d3, d4] :: findSerials (some d4) rest
    else findSerials (some c) (d1 :: d2 :: d3 :: d4 :: rest)
  | _ => []

/-- Order preserving deduplication of the serial number list, the model of
the seen set loop in get_serial_numbers. -/
def dedupStrings : List (List Char) → List (List Char) → List (List Char)
  | [], _ => []
  | s :: rest, seen =>
    if s ∈ seen then dedupStrings rest seen
    else s :: dedupStrings rest (s :: seen)

/-- The standard base64 alphabet in index order, as used by the Python
base64.b64encode and b64decode library calls. -/
def b64chars : List Char :=
  ['A', 'B', 'C', 'D', 'E', 'F', 'G', 'H', 'I', 'J', 'K', 'L', 'M',
   'N', 'O', 'P', 'Q', 'R', 'S', 'T', 'U', 'V', 'W', 'X', 'Y', 'Z',
   'a', 'b', 'c', 'd', 'e', 'f', 'g', 'h', 'i', 'j', 'k', 'l', 'm',
   'n', 'o', 'p', 'q', 'r', 's', 't', 'u', 'v', 'w', 'x', 'y', 'z',
   '0', '1', '2', '3', '4', '5', '6', '7', '8', '9', '+', '/']

/-- Character of a sextet value in the base64 alphabet. -/
def sxChar (n : ℕ) : Char := b64chars.getD n '='

/-- Sextet value of an alphabet character, none for a character outside the
base64 alphabet, in particular for the padding character. -/
def sxVal (c : Char) : Option ℕ := b64chars.findIdx? (fun x => x = c)

/-- Model of base64.b64encode on a byte list: three bytes become four
alphabet characters, a final group of one or two bytes is padded with one or
two padding characters. -/
def b64encodeBytes : List ℕ → List Char
  | [] => []
  | [a] => [sxChar (a / 4), sxChar (a % 4 * 16), '=', '=']
  | [a, b] => [sxChar (a / 4), sxChar (a % 4 * 16 + b / 16), sxChar (b % 16 * 4), '=']
  | a :: b :: c :: rest =>
    sxChar (a / 4) :: sxChar (a % 4 * 16 + b / 16) ::
    sxChar (b % 16 * 4 + c / 64) :: sxChar (c % 64) :: b64encodeBytes rest

/-- Core loop of the CPython binascii a2b_base64 decoder in its default non
strict mode, the library routine behind base64.b64decode: characters outside
the alphabet are ignored without touching the pad count; a data character
resets the pad count, extends the current quad, and a full quad emits three
bytes; a padding character at quad position two with a previous padding seen,
or at quad position three, finishes decoding at once with one or two
remaining bytes, ignoring the rest of the input; any other padding character
only increments the pad count; input ending with a partial quad raises,
modelled as none. -/
def a2bAux : List Char → List ℕ → ℕ → Option (List ℕ)
  | [], quad, _ =>
    match quad with
    | [] => some []
    | _ => none
  | c :: cs, quad, pads =>
    if c = '=' then
      match quad with
      | [a, b] =>
        if 4 ≤ 2 + pads + 1 then some [a * 4 + b / 16]
        else a2bAux cs [a, b] (pads + 1)
      | [a, b, c3] =>
        if 4 ≤ 3 + pads + 1 then some [a * 4 + b / 16, b % 16 * 16 + c3 / 4]
        else a2bAux cs [a, b, c3] (pads + 1)
      | q => a2bAux cs q (pads + 1)
    else
      match sxVal c with
      | none => a2bAux cs quad pads
      | some v =>
        match quad with
        | [a, b, c3] =>
          (a2bAux cs [] 0).map (fun tail =>
            (a * 4 + b / 16) :: (b % 16 * 16 + c3 / 4) :: (c3 % 4 * 64 + v) :: tail)
        | q => a2bAux cs (q ++ [v]) 0

/-- Model of base64.b64decode on a character list; none models the binascii
error raised on malformed input. -/
def b64decodeBytes (s : List Char) : Option (List ℕ) := a2bAux s [] 0

/-- Continuation byte test for the UTF-8 decoder. -/
def isContByte (b : ℕ) : Bool := 128 ≤ b && b < 192

/-- Validity of the continuation byte of a two byte sequence. -/
def utf8Valid2 (c1 : ℕ) : Bool := isContByte c1

/-- Scalar value of a two byte sequence. -/
def utf8Scalar2 (b c1 : ℕ) : Char := Char.ofNat ((b - 192) * 64 + (c1 - 128))

/-- Validity of the continuation bytes of a three byte sequence, rejecting
overlong forms and surrogates. -/
def utf8Valid3 (b c1 c2 : ℕ) : Bool :=
  isContByte c1 && isContByte c2 && (b ≠ 224 || 160 ≤ c1) && (b ≠ 237 || c1 < 160)

/-- Scalar value of a three byte sequence. -/
def utf8Scalar3 (b c1 c2 : ℕ) : Char :=
  Char.ofNat ((b - 224) * 4096 + (c1 - 128) * 64 + (c2 - 128))

/-- Validity of the continuation bytes of a four byte sequence, rejecting
overlong forms and values above the Unicode maximum. -/
def utf8Valid4 (b c1 c2 c3 : ℕ) : Bool :=
  isContByte c1 && isContByte c2 && isContByte c3
    && (b ≠ 240 || 144 ≤ c1) && (b ≠ 244 || c1 < 144)

/-- Scalar value of a four byte sequence. -/
def utf8Scalar4 (b c1 c2 c3 : ℕ) : Char :=
  Char.ofNat ((b - 240) * 262144 + (c1 - 128) * 4096 + (c2 - 128) * 64 + (c3 - 128))

/-- Model of the Python str.encode UTF-8 encoding of one character. -/
def utf8EncodeChar (c : Char) : List ℕ :=
  let n := c.toNat
  if n < 128 then [n]
  else if n < 2048 then [192 + n / 64, 128 + n % 64]
  else if n < 65536 then [224 + n / 4096, 128 + n / 64 % 64, 128 + n % 64]
  else [240 + n / 262144, 128 + n / 4096 % 64, 128 + n / 64 % 64, 128 + n % 64]

/-- Model of the Python str.encode UTF-8 encoding of a string. -/
def utf8EncodeList (l : List Char) : List ℕ := (l.map utf8EncodeChar).flatten

/-- Model of the Python bytes.decode strict UTF-8 decoder: rejects stray
continuation bytes, truncated sequences, overlong forms, surrogates and
values above the Unicode maximum; none models the UnicodeDecodeError
exception. The input shapes shorter than four bytes are spelled out so that
every recursive call is on a structural subterm. -/
def utf8Decode : List ℕ → Option (List Char)
  | [] => some []
  | [b] =>
    if b < 128 then (utf8Decode []).map (fun t => Char.ofNat b :: t) else none
  | [b, c1] =>
    if b < 128 then (utf8Decode [c1]).map (fun t => Char.ofNat b :: t)
    else if b < 194 then none
    else if b < 224 then
      if utf8Valid2 c1 then (utf8Decode []).map (fun t => utf8Scalar2 b c1 :: t) else none
    else none
  | [b, c1, c2] =>
    if b < 128 then (utf8Decode [c1, c2]).map (fun t => Char.ofNat b :: t)
    else if b < 194 then none
    else if b < 224 then
      if utf8Valid2 c1 then (utf8Decode [c2]).map (fun t => utf8Scalar2 b c1 :: t) else none
    else if b < 240 then
      if utf8Valid3 b c1 c2 then (utf8Decode []).map (fun t => utf8Scalar3 b c1 c2 :: t)
      else none
    else none
  | b :: c1 :: c2 :: c3 :: rest =>
    if b < 128 then (utf8Decode (c1 :: c2 :: c3 :: rest)).map (fun t => Char.ofNat b :: t)
    else if b < 194 then none
    else if b < 224 then
      if utf8Valid2 c1 then (utf8Decode (c2 :: c3 :: rest)).map (fun t => utf8Scalar2 b c1 :: t)
      else none
    else if b < 240 then
      if utf8Valid3 b c1 c2 then (utf8Decode (c3 :: rest)).map (fun t => utf8Scalar3 b c1 c2 :: t)
      else none
    else if b < 245 then
      if utf8Valid4 b c1 c2 c3 then (utf8Decode rest).map (fun t => utf8Scalar4 b c1 c2 c3 :: t)
      else none
    else none

/-- The static obfuscation key of simple_encrypt and simple_decrypt together
with the colon separator of the f-string. -/
def keyPrefix : List Char :=
  ['d', 'e', 'f', 'a', 'u', 'l', 't', '_', 'k', 'e', 'y', ':']

/-- Model of simple_encrypt from 5_io_v36_multi.py (identical in 4_limit.py,
6_io_multi_.py and 6_iolimit_v36.py): prepend the static key and a colon,
encode as UTF-8 and base64. The Python try block cannot fail on the modelled
inputs, so the fallback branch is not represented. -/
def simple_encrypt (text : List Char) : List Char :=
  b64encodeBytes (utf8EncodeList (keyPrefix ++ text))

/-- Model of simple_decrypt from 5_io_v36_multi.py (identical in the other
variants): base64 decode then UTF-8 decode; on either failure the caught
exception makes the function return its input unchanged; if the decoded text
starts with the key and colon that prefix is removed, otherwise the whole
decoded text is returned. -/
def simple_decrypt (encoded_text : List Char) : List Char :=
  match b64decodeBytes encoded_text with
  | none => encoded_text
  | some bs =>
    match utf8Decode bs with
    | none => encoded_text
    | some decoded =>
      if keyPrefix.isPrefixOf decoded then decoded.drop keyPrefix.length
      else decoded

/-- Exit status and captured stdout of one external command invocation. -/
structure CmdOut where
  exit : ℕ
  out : List Char
deriving DecidableEq

/-- The external commands the pipeline builds with f-strings, abstracted by
their distinguishing parts: raidcom login and logout, raidqry enumeration,
port and spm_wwn queries, and the three ssh or scp delivery steps. -/
inductive Cmd where
  | login (user pass : List Char) (inst : ℕ)
  | logout (inst : ℕ)
  | raidqry (inst : ℕ)
  | getPort (serial : List Char) (inst : ℕ)
  | getSpmWwn (port serial : List Char) (inst : ℕ)
  | getSpmWwnHba (port wwpn serial : List Char) (inst : ℕ)
  | sshMkdir (user server rpath key : List Char)
  | scpCopy (user server rpath key fpath : List Char)
  | sshLs (user server rpath key : List Char)
deriving DecidableEq

/-- Python error classes relevant to the pipeline: SystemExit raised by
sys.exit(1), which is not a subclass of Exception and therefore escapes every
except Exception handler in these scripts, and ordinary Exception instances,
which those handlers catch. -/
inductive PyErr where
  | systemExit
  | exc
deriving DecidableEq

deriving instance DecidableEq for Except

/-- Model of run_command from 5_io_v36_multi.py (identical in 4_limit.py,
6_io_multi_.py and 6_iolimit_v36.py): return stdout when the command exits
zero, otherwise log and call sys.exit(1), modelled as the SystemExit error. -/
def run_command (env : Cmd → CmdOut) (c : Cmd) : Except PyErr (List Char) :=
  if (env c).exit = 0 then Except.ok (env c).out else Except.error PyErr.systemExit

/-- A parsed row of query output, the model of the Python dict built by
parse_csv_content: header and value pairs in assignment order. -/
abbrev CsvRow := List (List Char × List Char)

/-- Model of dict.get with a default on a CsvRow: successive assignments to
the same key overwrite, so the last pair with the key wins. -/
def rowGet (row : CsvRow) (k dflt : List Char) : List Char :=
  match (row.filter (fun p => p.1 == k)).getLast? with
  | some p => p.2
  | none => dflt

/-- The loop body of parse_csv_content for one line under the given
headers: a non blank line with at least as many fields as there are headers
yields the dict pairing each header with the field at its index, any other
line yields nothing. -/
def csvRowOfLine (headers : List (List Char)) (separator : Char)
    (line : List Char) : Option CsvRow :=
  if stripChars line ≠ [] then
    let values := (splitOnChar separator line).map stripChars
    if headers.length ≤ values.length then
      some ((List.range headers.length).map (fun i =>
        (headers.getD i [], if i < values.length then values.getD i [] else [])))
    else none
  else none

/-- Model of parse_csv_content from 5_io_v36_multi.py (identical in
4_limit.py and 6_io_multi_.py): headers from the first line; a later line
yields a row only when it is not blank and has at least as many fields as
there are headers, so shorter lines are dropped. -/
def parse_csv_content (content : List Char) (separator : Char) : List CsvRow :=
  let lines := splitOnChar '\n' (stripChars content)
  match lines with
  | [] => []
  | headerLine :: rest =>
    let headers := (splitOnChar separator headerLine).map stripChars
    rest.filterMap (csvRowOfLine headers separator)

/-- The record type appended to the shared collection by
process_serial_number in 5_io_v36_multi.py. -/
structure SpmRecord where
  ArraySerial : List Char
  ArrayPort : List Char
  HostNickname : List Char
  HostGroup : List Char
  HostWWPN : List Char
  MonitorIOps : ℕ
  MonitorKBps : ℕ
  SPMLimitKBps : ℕ
  SPMPriority : List Char
  SourceLoadTimeEpoch : List Char
  SourceName : List Char
  BatchCreateTimeEpoch : List Char
deriving DecidableEq

/-- The deduplication key of the final collection loop: HostNickname,
ArrayPort and HostWWPN. -/
def spmKey (r : SpmRecord) : List Char × List Char × List Char :=
  (r.HostNickname, r.ArrayPort, r.HostWWPN)

/-- The literal WWPN searched for by the host nickname branch of
process_serial_number. -/
def nicknameLit : List Char :=
  ['1', '0', '0', '0', '9', '4', '4', '0', 'c', '9', 'd', '0', 'b', '0', '4', '5']

/-- The literal text of the second nickname pattern, which re.findall treats
as the plain string host_pattern comma space host_nickname dot values bracket
zero bracket because every escaped character is literal. -/
def hostPatternLit : List Char :=
  ['h', 'o', 's', 't', '_', 'p', 'a', 't', 't', 'e', 'r', 'n', ',', ' ',
   'h', 'o', 's', 't', '_', 'n', 'i', 'c', 'k', 'n', 'a', 'm', 'e', '.',
   'v', 'a', 'l', 'u', 'e', 's', '[', '0', ']']

/-- Colon separated display form of a WWPN: the model of the Python list
comprehension slicing the string into pieces of two characters. -/
def pairChunks : List Char → List (List Char)
  | [] => []
  | [a] => [[a]]
  | a :: b :: rest => [a, b] :: pairChunks rest

/-- Formatted WWPN, joining the two character pieces with colons. -/
def formatWwpn (w : List Char) : List Char := List.intercalate [':'] (pairChunks w)

/-- Mutable state of one process_serial_number call: the local record list
and the host_group local variable, which once assigned stays visible to the
later locals() test. -/
structure PsnState where
  recs : List SpmRecord
  hostGroup : Option (List (List Char))
deriving DecidableEq

/-- One record of the inner spm_lines loop of process_serial_number, built
from a whitespace split line with at least four fields. -/
def mkSpmEntry (serial port host_nickname host_group wwpn : List Char)
    (parts : List (List Char)) (spm_value spm_priority te : List Char) : SpmRecord :=
  { ArraySerial := serial
  , ArrayPort := port
  , HostNickname := if host_nickname ≠ [] then host_nickname else
      ['U', 'n', 'k', 'n', 'o', 'w', 'n']
  , HostGroup := host_group
  , HostWWPN := formatWwpn wwpn
  , MonitorIOps := if isdigitStr (parts.getD 2 []) then toNatDigits (parts.getD 2 []) else 0
  , MonitorKBps := if isdigitStr (parts.getD 3 []) then toNatDigits (parts.getD 3 []) else 0
  , SPMLimitKBps := if spm_value ≠ [] ∧ isdigitStr spm_value then toNatDigits spm_value else 0
  , SPMPriority := if spm_priority ≠ [] then spm_priority else []
  , SourceLoadTimeEpoch := te
  , SourceName := ['H', 'o', 's', 't', 'I', 'O', 'L', 'i', 'm', 'i', 't']
  , BatchCreateTimeEpoch := te }

/-- Body of the for row in spm_data loop of process_serial_number: nickname
search over the port level output, host_group locals() test (an empty
findall result makes the later index access raise, modelled as exc), then
the inner spm_lines loop appending one record per line with at least four
fields. -/
def processRow (hostOut spmOut wwpn serial port te : List Char)
    (st : PsnState) (row : CsvRow) : Except PyErr PsnState := do
  let spm_value := rowGet row ['K', 'B', 'p', 's'] []
  let spm_priority := rowGet row ['P', 'r', 'i'] []
  let stAfter :=
    if isInfixB nicknameLit hostOut then
      { st with hostGroup := some (findLiteral hostPatternLit hostOut) }
    else st
  let host_nickname :=
    if isInfixB nicknameLit hostOut then
      match findLiteral hostPatternLit hostOut with
      | g :: _ => g
      | [] => []
    else []
  let host_group ←
    match stAfter.hostGroup with
    | none => Except.ok ([] : List Char)
    | some [] => Except.error PyErr.exc
    | some (g :: _) => Except.ok g
  let spm_lines := splitOnChar '\n' (stripChars spmOut)
  if 1 < spm_lines.length then
    let newRecs := (spm_lines.drop 1).filterMap (fun line =>
      let parts := wsSplit line
      if 4 ≤ parts.length then
        some (mkSpmEntry serial port host_nickname host_group wwpn parts
          spm_value spm_priority te)
      else none)
    pure { stAfter with recs := stAfter.recs ++ newRecs }
  else pure stAfter

/-- Body of the for host_wwpn in wwpns loop: run the focused spm_wwn query
for one WWPN and process its parsed rows. -/
def processWwpn (env : Cmd → CmdOut) (serial : List Char) (inst : ℕ)
    (port hostOut te : List Char) (st : PsnState) (wwpn : List Char) :
    Except PyErr PsnState := do
  let spmOut ← run_command env (Cmd.getSpmWwnHba port wwpn serial inst)
  let spm_data := parse_csv_content spmOut ' '
  if spm_data ≠ [] then
    spm_data.foldlM (processRow hostOut spmOut wwpn serial port te) st
  else pure st

/-- Body of the for port_id in port_ids loop: run the port level spm_wwn
query, skip the port on empty output or unparseable output, extract the
WWPNs and process each of them. -/
def processPort (env : Cmd → CmdOut) (serial : List Char) (inst : ℕ)
    (te : List Char) (st : PsnState) (port : List Char) : Except PyErr PsnState := do
  let hostOut ← run_command env (Cmd.getSpmWwn port serial inst)
  if hostOut = [] then pure st
  else
    let host_data := parse_csv_content hostOut ' '
    if host_data = [] then pure st
    else
      let wwpns := findWwpns hostOut
      wwpns.foldlM (processWwpn env serial inst port hostOut te) st

/-- Model of process_serial_number from 5_io_v36_multi.py (the same function
appears in 6_io_multi_.py): port discovery for one serial followed by the
port, WWPN and row loops. The error outcome represents a raised exception
reaching the end of the function body: PyErr.exc is then caught and logged
by the surrounding except Exception handler, while PyErr.systemExit escapes
it; in both cases the local record list is never appended to the shared
collection. -/
def process_serial_number (env : Cmd → CmdOut) (serial : List Char)
    (inst : ℕ) (te : List Char) : Except PyErr (List SpmRecord) := do
  let portOut ← run_command env (Cmd.getPort serial inst)
  let ports := findPortIds portOut
  let st ← ports.foldlM (processPort env serial inst te) ⟨[], none⟩
  pure st.recs

/-- Records a worker thread contributes to the shared all_spm_data list: on
any raised error nothing is appended, because the extend call at the end of
the try block is never reached. -/
def threadContribution (env : Cmd → CmdOut) (serial : List Char)
    (inst : ℕ) (te : List Char) : List SpmRecord :=
  match process_serial_number env serial inst te with
  | Except.ok recs => recs
  | Except.error _ => []

/-- Model of chunk_list from 5_io_v36_multi.py and 6_io_multi_.py: slices of
the given size taken at offsets zero, size, twice the size and so on. -/
def chunk_list (l : List α) (chunk_size : ℕ) : List (List α) :=
  if l.length = 0 ∨ chunk_size = 0 then []
  else l.take chunk_size :: chunk_list (l.drop chunk_size) chunk_size
termination_by l.length
decreasing_by
  rename_i h
  rw [not_or] at h
  simp only [List.length_drop]
  omega

/-- The chunk size the main function of 5_io_v36_multi.py actually uses: the
assignment chunk_size = 2 with the comment always process 2 serial numbers
at a time, independent of the parsed threads argument. -/
def pipelineChunkSize (_threads : ℕ) : ℕ := 2

/-- The serial number groups formed in main: list(chunk_list(serial_numbers,
chunk_size)) with the hard coded chunk size. -/
def pipelineChunks (serials : List (List Char)) (threads : ℕ) :
    List (List (List Char)) :=
  chunk_list serials (pipelineChunkSize threads)

/-- Round half to even on a rational, the behaviour of the Python builtin
round on an exactly representable value. -/
def roundHalfEven (q : ℚ) : ℤ :=
  let f := ⌊q⌋
  let r := q - f
  if r < 1 / 2 then f
  else if 1 / 2 < r then f + 1
  else if f % 2 = 0 then f else f + 1

/-- Rounding to two decimal places, the model of round(value, 2). -/
def pyRound2 (q : ℚ) : ℚ := (roundHalfEven (q * 100) : ℚ) / 100

/-- Model of calculate_percentage from 5_io_v36_multi.py (identical in
4_limit.py and 6_io_multi_.py): both arguments truthy and a positive limit
give the rounded percentage, every other case gives zero; the guard makes
the division by zero branch unreachable, and the except clause for
ZeroDivisionError is therefore dead. -/
def calculate_percentage (monitor_kbps spml_limit_kbps : ℚ) : ℚ :=
  if monitor_kbps ≠ 0 ∧ spml_limit_kbps ≠ 0 ∧ 0 < spml_limit_kbps then
    pyRound2 (monitor_kbps / spml_limit_kbps * 100)
  else 0

/-- Model of the deduplication loop in main of 5_io_v36_multi.py and
4_limit.py, generalised over the already seen key set. -/
def dedupAux : List SpmRecord → List (List Char × List Char × List Char) →
    List SpmRecord
  | [], _ => []
  | r :: rest, seen =>
    if spmKey r ∈ seen then dedupAux rest seen
    else r :: dedupAux rest (spmKey r :: seen)

/-- The deduplicated unique_data list: iterate over the collected records
with an initially empty seen set, keeping a record only when its key is new. -/
def dedupRecords (l : List SpmRecord) : List SpmRecord := dedupAux l []

/-- The record type produced by parse_spm_data in 6_iolimit_v36.py. The
field HostIOLimitF models the dict key HostIOLimit. -/
structure SpmRow6 where
  ArraySerial : List Char
  ArrayPort : List Char
  HostNickName : List Char
  HostGroup : List Char
  HostWWPN : List Char
  MonitorIOps : ℕ
  MonitorKBps : ℕ
  SPMLimitKBps : ℕ
  SPMPriority : ℕ
  SourceLoadTimeEpoch : ℕ
  SourceName : List Char
  HostIOLimitF : List Char
  BatchCreateTimeEpoch : ℕ
deriving DecidableEq

/-- The loop body of parse_spm_data for one line: skip a blank line, split
on whitespace, keep the line only when it has at least four fields, fill the
positional fields and give value zero to a numeric field whose column is
absent or not all digits. -/
def spmRowOfLine (array_serial : List Char) (now : ℕ) (line : List Char) :
    Option SpmRow6 :=
  if stripChars line = [] then none
  else
    let parts := wsSplit line
    if 4 ≤ parts.length then
      some { ArraySerial := array_serial
           , ArrayPort := parts.getD 0 []
           , HostNickName := parts.getD 1 []
           , HostGroup := parts.getD 2 []
           , HostWWPN := parts.getD 3 []
           , MonitorIOps :=
               if 4 < parts.length ∧ isdigitStr (parts.getD 4 []) then
                 toNatDigits (parts.getD 4 []) else 0
           , MonitorKBps :=
               if 5 < parts.length ∧ isdigitStr (parts.getD 5 []) then
                 toNatDigits (parts.getD 5 []) else 0
           , SPMLimitKBps :=
               if 6 < parts.length ∧ isdigitStr (parts.getD 6 []) then
                 toNatDigits (parts.getD 6 []) else 0
           , SPMPriority :=
               if 7 < parts.length ∧ isdigitStr (parts.getD 7 []) then
                 toNatDigits (parts.getD 7 []) else 0
           , SourceLoadTimeEpoch := now
           , SourceName := ['H', 'o', 's', 't', 'I', 'O', 'L', 'i', 'm', 'i', 't']
           , HostIOLimitF := []
           , BatchCreateTimeEpoch := now }
    else none

/-- Model of parse_spm_data from 6_iolimit_v36.py: skip the header line and
apply the line body to every remaining line; the now argument stands for the
get_timestamp epoch calls. -/
def parse_spm_data (raw_data array_serial : List Char) (now : ℕ) : List SpmRow6 :=
  let lines := splitOnChar '\n' (stripChars raw_data)
  (lines.drop 1).filterMap (spmRowOfLine array_serial now)

/-- Base name of a path, the model of os.path.basename: the part after the
last slash. -/
def basenameOf (p : List Char) : List Char := (splitOnChar '/' p).getLastD []

/-- Model of send_scp_file from 6_iolimit_v36.py: run_command for the remote
mkdir, then for the scp copy, then for the remote ls; the function returns
true or false according to whether the base name of the local file appears
in the listing. Because each step goes through run_command, a non zero exit
raises SystemExit, which the except Exception clause of send_scp_file does
not catch, so the error outcome models the process exiting instead of a
false return. The first component records the commands issued, in order. -/
def send_scp_file (env : Cmd → CmdOut) (user file_path remote_server
    remote_path scp_key : List Char) : List Cmd × Except PyErr Bool :=
  let c1 := Cmd.sshMkdir user remote_server remote_path scp_key
  match run_command env c1 with
  | Except.error e => ([c1], Except.error e)
  | Except.ok _ =>
    let c2 := Cmd.scpCopy user remote_server remote_path scp_key file_path
    match run_command env c2 with
    | Except.error e => ([c1, c2], Except.error e)
    | Except.ok _ =>
      let c3 := Cmd.sshLs user remote_server remote_path scp_key
      match run_command env c3 with
      | Except.error e => ([c1, c2, c3], Except.error e)
      | Except.ok check =>
        ([c1, c2, c3], Except.ok (isInfixB (basenameOf file_path) check))

/-- Model of get_serial_numbers from 5_io_v36_multi.py and 6_io_multi_.py:
run raidqry, extract the serial pattern matches and deduplicate them
preserving order. The surrounding try block catches only Exception, so the
SystemExit raised by run_command on a non zero exit propagates. -/
def get_serial_numbers (env : Cmd → CmdOut) (inst : ℕ) :
    Except PyErr (List (List Char)) := do
  let out ← run_command env (Cmd.raidqry inst)
  pure (dedupStrings (findSerials none out) [])

/-- Final outcome of one run of the script process. -/
inductive RunOutcome where
  | completed
  | exited (code : ℕ)
deriving DecidableEq

/-- Model of the top level control flow of main in 6_io_multi_.py: login,
serial discovery, the hard coded chunking with per serial worker threads
whose failures never propagate to main, and the final logout. The first
component lists the external commands issued directly by main in order; the
collection stage contributions are evaluated but its commands are issued
inside the worker threads. A failing login or logout raises SystemExit from
run_command, which the except Exception clause of main does not catch, so
the process exits with code one at that point. -/
def mainFlow (env : Cmd → CmdOut) (user pass : List Char) (inst : ℕ)
    (te : List Char) : List Cmd × RunOutcome :=
  match run_command env (Cmd.login user pass inst) with
  | Except.error _ => ([Cmd.login user pass inst], RunOutcome.exited 1)
  | Except.ok _ =>
    match get_serial_numbers env inst with
    | Except.error _ =>
      ([Cmd.login user pass inst, Cmd.raidqry inst], RunOutcome.exited 1)
    | Except.ok serials =>
      if serials = [] then
        ([Cmd.login user pass inst, Cmd.raidqry inst], RunOutcome.exited 1)
      else
        let _ := (chunk_list serials 2).map
          (fun chunk => chunk.map (fun s => threadContribution env s inst te))
        match run_command env (Cmd.logout inst) with
        | Except.error _ =>
          ([Cmd.login user pass inst, Cmd.raidqry inst, Cmd.logout inst],
           RunOutcome.exited 1)
        | Except.ok _ =>
          ([Cmd.login user pass inst, Cmd.raidqry inst, Cmd.logout inst],
           RunOutcome.completed)

/-- Port query output of the concrete collection scenario: a header line and
two port identifiers. -/
def portOutC1 : List Char := "HDR\nCL1-A-B x\nCL2-C-D y".data

/-- Port level spm_wwn output for the first port: one header line, one data
line whose last field is a sixteen digit lowercase hex WWPN. -/
def hostOutC1 : List Char := "A B C D\np q r 00112233aabbccdd".data

/-- Focused spm_wwn output for the WWPN: one header line naming the KBps and
Pri columns and one data line with five fields. -/
def spmOutC1 : List Char := "WWN NICK IOps KBps Pri\n00112233aabbccdd nick 100 500 prio".data

/-- Environment in which every query of the scenario succeeds: the first
port yields data, the second port yields empty output and is skipped. -/
def envC1good : Cmd → CmdOut := fun c =>
  match c with
  | Cmd.getPort _ _ => ⟨0, portOutC1⟩
  | Cmd.getSpmWwn port _ _ =>
    if port = "CL1-A-B".data then ⟨0, hostOutC1⟩ else ⟨0, []⟩
  | Cmd.getSpmWwnHba _ _ _ _ => ⟨0, spmOutC1⟩
  | _ => ⟨0, []⟩

/-- The same environment except that the port level query for the second
port exits non zero. -/
def envC1bad : Cmd → CmdOut := fun c =>
  match c with
  | Cmd.getPort _ _ => ⟨0, portOutC1⟩
  | Cmd.getSpmWwn port _ _ =>
    if port = "CL1-A-B".data then ⟨0, hostOutC1⟩ else ⟨1, []⟩
  | Cmd.getSpmWwnHba _ _ _ _ => ⟨0, spmOutC1⟩
  | _ => ⟨0, []⟩

/-- The single record the scenario produces for the first port. -/
def recC1 : SpmRecord :=
  { ArraySerial := "50001".data
  , ArrayPort := "CL1-A-B".data
  , HostNickname := "Unknown".data
  , HostGroup := []
  , HostWWPN := "00:11:22:33:aa:bb:cc:dd".data
  , MonitorIOps := 100
  , MonitorKBps := 500
  , SPMLimitKBps := 500
  , SPMPriority := "prio".data
  , SourceLoadTimeEpoch := "17".data
  , SourceName := "HostIOLimit".data
  , BatchCreateTimeEpoch := "17".data }

/-- Environment in which the raidcom login command exits non zero and every
other command would succeed. -/
def envLoginFail : Cmd → CmdOut := fun c =>
  match c with
  | Cmd.login _ _ _ => ⟨1, []⟩
  | _ => ⟨0, []⟩

/-- Delivery environment in which the remote mkdir step exits non zero. -/
def envScpMkdirFail : Cmd → CmdOut := fun c =>
  match c with
  | Cmd.sshMkdir _ _ _ _ => ⟨1, []⟩
  | _ => ⟨0, []⟩

/-- Delivery environment in which all three steps succeed and the remote
listing contains the file name. -/
def envScpOk : Cmd → CmdOut := fun c =>
  match c with
  | Cmd.sshLs _ _ _ _ => ⟨0, "report.csv meta.json".data⟩
  | _ => ⟨0, []⟩

/-- A record with the key fields of the collection scenario and a monitor
value of 100. -/
def recA : SpmRecord := { recC1 with MonitorKBps := 100 }

/-- A record identical to recA in the three key fields but with a monitor
value of 200. -/
def recB : SpmRecord := { recC1 with MonitorKBps := 200 }

/-- Every base64 alphabet index below 64 decodes back to itself. -/
theorem sxVal_sxChar : ∀ n : ℕ, n < 64 → sxVal (sxChar n) = some n := by decide

/-- No base64 alphabet character is the padding character. -/
theorem sxChar_ne_pad : ∀ n : ℕ, n < 64 → sxChar n ≠ '=' := by decide

/-- Decoder step: a data character joins an empty quad and resets the pad
count. -/
theorem a2bAux_data0 (c : Char) (v : ℕ) (hne : c ≠ '=') (hv : sxVal c = some v)
    (cs : List Char) (pads : ℕ) :
    a2bAux (c :: cs) [] pads = a2bAux cs [v] 0 := by
  simp only [a2bAux, if_neg hne, hv]
  rfl

/-- Decoder step: a data character joins a quad of one and resets the pad
count. -/
theorem a2bAux_data1 (c : Char) (v : ℕ) (hne : c ≠ '=') (hv : sxVal c = some v)
    (cs : List Char) (a pads : ℕ) :
    a2bAux (c :: cs) [a] pads = a2bAux cs [a, v] 0 := by
  simp only [a2bAux, if_neg hne, hv]
  rfl

/-- Decoder step: a data character joins a quad of two and resets the pad
count. -/
theorem a2bAux_data2 (c : Char) (v : ℕ) (hne : c ≠ '=') (hv : sxVal c = some v)
    (cs : List Char) (a b pads : ℕ) :
    a2bAux (c :: cs) [a, b] pads = a2bAux cs [a, b, v] 0 := by
  simp only [a2bAux, if_neg hne, hv]
  rfl

/-- Decoder step: a data character completes a quad, emitting three bytes. -/
theorem a2bAux_data3 (c : Char) (v : ℕ) (hne : c ≠ '=') (hv : sxVal c = some v)
    (cs : List Char) (a b c3 pads : ℕ) :
    a2bAux (c :: cs) [a, b, c3] pads =
      (a2bAux cs [] 0).map (fun tail =>
        (a * 4 + b / 16) :: (b % 16 * 16 + c3 / 4) :: (c3 % 4 * 64 + v) :: tail) := by
  simp only [a2bAux, if_neg hne, hv]

/-- Decoder step: a first padding character after a quad of two only counts. -/
theorem a2bAux_pad2_first (cs : List Char) (a b : ℕ) :
    a2bAux ('=' :: cs) [a, b] 0 = a2bAux cs [a, b] 1 := by
  simp [a2bAux]

/-- Decoder step: a second padding character after a quad of two finishes
with one byte. -/
theorem a2bAux_pad2_done (cs : List Char) (a b : ℕ) :
    a2bAux ('=' :: cs) [a, b] 1 = some [a * 4 + b / 16] := by
  simp [a2bAux]

/-- Decoder step: a padding character after a quad of three finishes with
two bytes. -/
theorem a2bAux_pad3_done (cs : List Char) (a b c3 : ℕ) :
    a2bAux ('=' :: cs) [a, b, c3] 0 =
      some [a * 4 + b / 16, b % 16 * 16 + c3 / 4] := by
  simp [a2bAux]

/-- The base64 decoder inverts the encoder on every byte list. -/
theorem b64_roundtrip : ∀ bs : List ℕ, (∀ b ∈ bs, b < 256) →
    a2bAux (b64encodeBytes bs) [] 0 = some bs
  | [], _ => rfl
  | [a], h => by
    have ha : a < 256 := h a (by simp)
    have h1 : a / 4 < 64 := by omega
    have h2 : a % 4 * 16 < 64 := by omega
    simp only [b64encodeBytes]
    rw [a2bAux_data0 _ _ (sxChar_ne_pad _ h1) (sxVal_sxChar _ h1),
        a2bAux_data1 _ _ (sxChar_ne_pad _ h2) (sxVal_sxChar _ h2),
        a2bAux_pad2_first, a2bAux_pad2_done]
    have : a / 4 * 4 + a % 4 * 16 / 16 = a := by omega
    rw [this]
  | [a, b], h => by
    have ha : a < 256 := h a (by simp)
    have hb : b < 256 := h b (by simp)
    have h1 : a / 4 < 64 := by omega
    have h2 : a % 4 * 16 + b / 16 < 64 := by omega
    have h3 : b % 16 * 4 < 64 := by omega
    simp only [b64encodeBytes]
    rw [a2bAux_data0 _ _ (sxChar_ne_pad _ h1) (sxVal_sxChar _ h1),
        a2bAux_data1 _ _ (sxChar_ne_pad _ h2) (sxVal_sxChar _ h2),
        a2bAux_data2 _ _ (sxChar_ne_pad _ h3) (sxVal_sxChar _ h3),
        a2bAux_pad3_done]
    have e1 : a / 4 * 4 + (a % 4 * 16 + b / 16) / 16 = a := by omega
    have e2 : (a % 4 * 16 + b / 16) % 16 * 16 + b % 16 * 4 / 4 = b := by omega
    rw [e1, e2]
  | a :: b :: c :: rest, h => by
    have ha : a < 256 := h a (by simp)
    have hb : b < 256 := h b (by simp)
    have hc : c < 256 := h c (by simp)
    have ih := b64_roundtrip rest (fun x hx => h x (by simp [hx]))
    have h1 : a / 4 < 64 := by omega
    have h2 : a % 4 * 16 + b / 16 < 64 := by omega
    have h3 : b % 16 * 4 + c / 64 < 64 := by omega
    have h4 : c % 64 < 64 := by omega
    simp only [b64encodeBytes]
    rw [a2bAux_data0 _ _ (sxChar_ne_pad _ h1) (sxVal_sxChar _ h1),
        a2bAux_data1 _ _ (sxChar_ne_pad _ h2) (sxVal_sxChar _ h2),
        a2bAux_data2 _ _ (sxChar_ne_pad _ h3) (sxVal_sxChar _ h3),
        a2bAux_data3 _ _ (sxChar_ne_pad _ h4) (sxVal_sxChar _ h4),
        ih]
    have e1 : a / 4 * 4 + (a % 4 * 16 + b / 16) / 16 = a := by omega
    have e2 : (a % 4 * 16 + b / 16) % 16 * 16 + (b % 16 * 4 + c / 64) / 4 = b := by omega
    have e3 : (b % 16 * 4 + c / 64) % 4 * 64 + c % 64 = c := by omega
    rw [Option.map_some']
    rw [e1, e2, e3]

/-- An ASCII character is UTF-8 encoded as its own code point. -/
theorem utf8EncodeChar_ascii (c : Char) (h : c.toNat < 128) :
    utf8EncodeChar c = [c.toNat] := by
  simp [utf8EncodeChar, h]

/-- The UTF-8 encoding of a list decomposes over its head. -/
theorem utf8EncodeList_cons (c : Char) (rest : List Char) :
    utf8EncodeList (c :: rest) = utf8EncodeChar c ++ utf8EncodeList rest := by
  simp only [utf8EncodeList, List.map_cons, List.flatten_cons]

/-- The UTF-8 encoding of an ASCII string is its list of code points. -/
theorem utf8EncodeList_ascii : ∀ l : List Char, (∀ c ∈ l, c.toNat < 128) →
    utf8EncodeList l = l.map Char.toNat
  | [], _ => rfl
  | c :: rest, h => by
    have hc : c.toNat < 128 := h c (by simp)
    have ih := utf8EncodeList_ascii rest (fun x hx => h x (by simp [hx]))
    rw [utf8EncodeList_cons, utf8EncodeChar_ascii c hc, ih, List.map_cons,
      List.singleton_append]

/-- Decoder step for a single ASCII byte. -/
theorem utf8Decode_cons_ascii (b : ℕ) (hb : b < 128) (bs : List ℕ) :
    utf8Decode (b :: bs) = (utf8Decode bs).map (fun t => Char.ofNat b :: t) := by
  rcases bs with _ | ⟨c1, _ | ⟨c2, _ | ⟨c3, rest⟩⟩⟩
  · conv => lhs; rw [utf8Decode.eq_def]
    simp only [if_pos hb]
  · conv => lhs; rw [utf8Decode.eq_def]
    simp only [if_pos hb]
  · conv => lhs; rw [utf8Decode.eq_def]
    simp only [if_pos hb]
  · conv => lhs; rw [utf8Decode.eq_def]
    simp only [if_pos hb]

/-- The UTF-8 decoder inverts the encoder on ASCII strings. -/
theorem utf8Decode_ascii : ∀ l : List Char, (∀ c ∈ l, c.toNat < 128) →
    utf8Decode (utf8EncodeList l) = some l
  | [], _ => rfl
  | c :: rest, h => by
    have hc : c.toNat < 128 := h c (by simp)
    have ih := utf8Decode_ascii rest (fun x hx => h x (by simp [hx]))
    rw [utf8EncodeList_cons, utf8EncodeChar_ascii c hc, List.singleton_append,
      utf8Decode_cons_ascii _ hc, ih, Option.map_some', Char.ofNat_toNat]

/-- C5: the credential obfuscation round trips: for every printable ASCII
string u, simple_decrypt applied to simple_encrypt of u yields u, where
encoding concatenates the static key with the plaintext and base64 encodes,
and decoding reverses this exactly. -/
theorem C5_credential_roundtrip (text : List Char)
    (h : ∀ c ∈ text, 32 ≤ c.toNat ∧ c.toNat ≤ 126) :
    simple_decrypt (simple_encrypt text) = text := by
  have hkp : ∀ c ∈ keyPrefix, c.toNat < 128 := by decide
  have hall : ∀ c ∈ keyPrefix ++ text, c.toNat < 128 := by
    intro c hc
    rcases List.mem_append.mp hc with hk | ht
    · exact hkp c hk
    · exact lt_of_le_of_lt (h c ht).2 (by norm_num)
  have hbytes : ∀ b ∈ utf8EncodeList (keyPrefix ++ text), b < 256 := by
    rw [utf8EncodeList_ascii _ hall]
    intro b hb
    rcases List.mem_map.mp hb with ⟨c, hc, rfl⟩
    exact lt_trans (hall c hc) (by norm_num)
  have hrt := b64_roundtrip _ hbytes
  have hpre : keyPrefix.isPrefixOf (keyPrefix ++ text) = true := by
    rw [List.isPrefixOf_iff_prefix]
    exact List.prefix_append _ _
  simp only [simple_encrypt, simple_decrypt, b64decodeBytes]
  rw [hrt]
  simp only [utf8Decode_ascii _ hall, hpre, if_true]
  exact List.drop_left _ _

/-- C5 witness: the round trip at the concrete printable ASCII username
monitor1. -/
theorem C5_credential_roundtrip_witness :
    (∀ c ∈ "monitor1".data, 32 ≤ c.toNat ∧ c.toNat ≤ 126) ∧
    simple_decrypt (simple_encrypt "monitor1".data) = "monitor1".data :=
  ⟨by decide, C5_credential_roundtrip _ (by decide)⟩

/-- C10: simple_decrypt is total and never raises: when base64 decoding
fails it returns the input unchanged, when the decoded bytes are not valid
UTF-8 it returns the input unchanged, and when the decoded text lacks the
key prefix it returns the full decoded text. -/
theorem C10_decrypt_total (s : List Char) :
    (b64decodeBytes s = none → simple_decrypt s = s) ∧
    (∀ bs, b64decodeBytes s = some bs → utf8Decode bs = none →
      simple_decrypt s = s) ∧
    (∀ bs t, b64decodeBytes s = some bs → utf8Decode bs = some t →
      keyPrefix.isPrefixOf t = false → simple_decrypt s = t) := by
  refine ⟨?_, ?_, ?_⟩
  · intro hb
    simp [simple_decrypt, hb]
  · intro bs hb hu
    simp [simple_decrypt, hb, hu]
  · intro bs t hb hu hp
    simp [simple_decrypt, hb, hu, hp]

/-- C10 witness: the single character A is rejected by the base64 decoder
and comes back unchanged; the encoding of the byte 128 decodes to a byte
list that is not UTF-8 and comes back unchanged; the base64 encoding of
hello decodes to the full text hello because the key prefix is absent. -/
theorem C10_decrypt_total_witness :
    simple_decrypt "A".data = "A".data ∧
    simple_decrypt "gA==".data = "gA==".data ∧
    simple_decrypt "aGVsbG8=".data = "hello".data :=
  ⟨(C10_decrypt_total _).1 (by decide),
   (C10_decrypt_total _).2.1 [128] (by decide) (by decide),
   (C10_decrypt_total _).2.2 [104, 101, 108, 108, 111] "hello".data
     (by decide) (by decide) (by decide)⟩

/-- The chunking of the empty list is empty. -/
theorem chunk_list_nil (k : ℕ) : chunk_list ([] : List α) k = [] := by
  unfold chunk_list
  simp

/-- Unfolding step of the chunking of a nonempty list. -/
theorem chunk_list_cons (x : α) (xs : List α) (k : ℕ) (hk : k ≠ 0) :
    chunk_list (x :: xs) k = (x :: xs).take k :: chunk_list ((x :: xs).drop k) k := by
  conv => lhs; unfold chunk_list
  simp [hk]

/-- Chunking with size two takes the first two elements off a list of at
least two. -/
theorem chunk_list_cons₂ (a b : α) (l : List α) :
    chunk_list (a :: b :: l) 2 = [a, b] :: chunk_list l 2 := by
  rw [chunk_list_cons a (b :: l) 2 (by norm_num)]
  simp

/-- Chunking a one element list with size two gives one singleton group. -/
theorem chunk_list_one (a : α) : chunk_list [a] 2 = [[a]] := by
  rw [chunk_list_cons a [] 2 (by norm_num)]
  simp [chunk_list_nil]

/-- Concatenating the chunks of size two in order reproduces the list. -/
theorem chunk_join : ∀ l : List α, (chunk_list l 2).flatten = l
  | [] => by simp [chunk_list_nil]
  | [a] => by simp [chunk_list_one]
  | a :: b :: rest => by
    rw [chunk_list_cons₂, List.flatten_cons, chunk_join rest]
    rfl

/-- The number of chunks of size two is the rounded up half length. -/
theorem chunk_length : ∀ l : List α, (chunk_list l 2).length = (l.length + 1) / 2
  | [] => by simp [chunk_list_nil]
  | [a] => by simp [chunk_list_one]
  | a :: b :: rest => by
    rw [chunk_list_cons₂, List.length_cons, chunk_length rest]
    simp only [List.length_cons]
    omega

/-- Every chunk of size two except possibly the last has exactly two
elements. -/
theorem chunk_dropLast : ∀ (l : List α) (c : List α),
    c ∈ (chunk_list l 2).dropLast → c.length = 2
  | [], c => by simp [chunk_list_nil]
  | [a], c => by simp [chunk_list_one]
  | a :: b :: rest, c => by
    rw [chunk_list_cons₂]
    rcases rest with _ | ⟨x, xs⟩
    · simp [chunk_list_nil]
    · intro hc
      have hne : chunk_list (x :: xs) 2 ≠ [] := by
        rw [chunk_list_cons x xs 2 (by norm_num)]
        simp
      rw [List.dropLast_cons_of_ne_nil hne] at hc
      rcases List.mem_cons.mp hc with rfl | hmem
      · rfl
      · exact chunk_dropLast (x :: xs) c hmem

/-- The last chunk of size two has the remainder many elements, or two when
the length is even. -/
theorem chunk_getLast : ∀ (l : List α) (c : List α),
    (chunk_list l 2).getLast? = some c →
    c.length = if l.length % 2 = 0 then 2 else l.length % 2
  | [], c => by simp [chunk_list_nil]
  | [a], c => by
    simp only [chunk_list_one, List.getLast?_singleton, Option.some_inj]
    rintro rfl
    rfl
  | a :: b :: rest, c => by
    rw [chunk_list_cons₂]
    rcases rest with _ | ⟨x, xs⟩
    · simp only [chunk_list_nil, List.getLast?_singleton, Option.some_inj]
      rintro rfl
      simp
    · intro hc
      rw [chunk_list_cons x xs 2 (by norm_num), List.getLast?_cons_cons,
        ← chunk_list_cons x xs 2 (by norm_num)] at hc
      have ih := chunk_getLast (x :: xs) c hc
      have hmod : (a :: b :: x :: xs : List α).length % 2 = (x :: xs : List α).length % 2 := by
        simp only [List.length_cons]
        omega
      rw [hmod]
      exact ih

/-- C6: chunk_list with size two produces the rounded up half as many
groups, each group except possibly the last has exactly two elements, the
last group has length mod 2 elements or two when the length is even, and
concatenating the groups in order reproduces the original list. -/
theorem C6_chunking {α : Type} (l : List α) :
    (chunk_list l 2).length = (l.length + 1) / 2 ∧
    (chunk_list l 2).flatten = l ∧
    (∀ c ∈ (chunk_list l 2).dropLast, c.length = 2) ∧
    (∀ c, (chunk_list l 2).getLast? = some c →
      c.length = if l.length % 2 = 0 then 2 else l.length % 2) :=
  ⟨chunk_length l, chunk_join l, fun c hc => chunk_dropLast l c hc,
   fun c hc => chunk_getLast l c hc⟩

/-- C6 witness: the four properties evaluated on the three element list with
entries 0, 1 and 2. -/
theorem C6_chunking_witness :
    (chunk_list [0, 1, 2] 2).length = 2 ∧
    (chunk_list [0, 1, 2] 2).flatten = [0, 1, 2] ∧
    ([0, 1] : List ℕ).length = 2 ∧
    ([2] : List ℕ).length =
      (if ([0, 1, 2] : List ℕ).length % 2 = 0 then 2 else ([0, 1, 2] : List ℕ).length % 2) :=
  ⟨(C6_chunking [0, 1, 2]).1, (C6_chunking [0, 1, 2]).2.1,
   (C6_chunking [0, 1, 2]).2.2.1 [0, 1] (by simp [chunk_list_cons₂, chunk_list_one]),
   (C6_chunking [0, 1, 2]).2.2.2 [2] (by simp [chunk_list_cons₂, chunk_list_one])⟩

/-- C9 counterexample: with three discovered serial numbers and a configured
thread count of three the claim predicts one group of three, but main chunks
with the hard coded size two and produces a pair and a singleton. -/
theorem C9_counterexample :
    pipelineChunks ["50001".data, "50002".data, "50003".data] 3 =
      [["50001".data, "50002".data], ["50003".data]] ∧
    pipelineChunks ["50001".data, "50002".data, "50003".data] 3 ≠
      [["50001".data, "50002".data, "50003".data]] := by
  constructor
  · simp only [pipelineChunks, pipelineChunkSize, chunk_list_cons₂, chunk_list_one]
  · simp only [pipelineChunks, pipelineChunkSize, chunk_list_cons₂, chunk_list_one]
    decide

/-- C9 amended: the fan out groups are always of size two, the hard coded
chunk size, whatever the configured thread count is; the thread count
argument is parsed but does not size the groups, which still cover the
serial list in order. -/
theorem C9_chunking_ignores_threads (serials : List (List Char)) (t : ℕ) :
    pipelineChunks serials t = chunk_list serials 2 ∧
    (pipelineChunks serials t).flatten = serials ∧
    (∀ c ∈ (pipelineChunks serials t).dropLast, c.length = 2) :=
  ⟨rfl, chunk_join serials, fun c hc => chunk_dropLast serials c hc⟩

/-- C9 amended witness: the group shape at a concrete serial list and thread
count seven. -/
theorem C9_chunking_ignores_threads_witness :
    (pipelineChunks ["50001".data, "50002".data, "50003".data] 7).flatten =
      ["50001".data, "50002".data, "50003".data] ∧
    (["50001".data, "50002".data] : List (List Char)).length = 2 :=
  ⟨(C9_chunking_ignores_threads _ 7).2.1,
   (C9_chunking_ignores_threads ["50001".data, "50002".data, "50003".data] 7).2.2
     ["50001".data, "50002".data]
     (by simp [pipelineChunks, pipelineChunkSize, chunk_list_cons₂, chunk_list_one])⟩

/-- C3: for all non negative inputs calculate_percentage returns zero when
the limit is non positive or the kbps value is falsy, and otherwise the
percentage rounded to two decimals; in particular zero over zero gives zero
and 500 over 1000 gives 50; the truthiness guard makes the division branch
unreachable for a zero limit, so no division by zero can occur. -/
theorem C3_calculate_percentage (kbps limit : ℚ) (hk : 0 ≤ kbps) (hl : 0 ≤ limit) :
    (limit ≤ 0 ∨ kbps = 0 → calculate_percentage kbps limit = 0) ∧
    (kbps ≠ 0 → 0 < limit →
      calculate_percentage kbps limit = pyRound2 (kbps / limit * 100)) ∧
    calculate_percentage 0 0 = 0 ∧
    calculate_percentage 500 1000 = 50 := by
  refine ⟨?_, ?_, ?_, ?_⟩
  · intro h
    rcases h with h | h
    · have hz : limit = 0 := le_antisymm h hl
      subst hz
      simp [calculate_percentage]
    · subst h
      simp [calculate_percentage]
  · intro hk0 hl0
    rw [calculate_percentage, if_pos ⟨hk0, ne_of_gt hl0, hl0⟩]
  · simp [calculate_percentage]
  · have hguard : (500 : ℚ) ≠ 0 ∧ (1000 : ℚ) ≠ 0 ∧ (0 : ℚ) < 1000 := by norm_num
    rw [calculate_percentage, if_pos hguard]
    norm_num [pyRound2, roundHalfEven]

/-- C3 witness: the two concrete evaluations named by the claim. -/
theorem C3_calculate_percentage_witness :
    calculate_percentage 500 1000 = 50 ∧ calculate_percentage 0 0 = 0 :=
  ⟨(C3_calculate_percentage 500 1000 (by norm_num) (by norm_num)).2.2.2,
   (C3_calculate_percentage 0 0 le_rfl le_rfl).2.2.1⟩

/-- The deduplication loop output is a sublist of its input. -/
theorem dedupAux_sublist : ∀ (l : List SpmRecord)
    (seen : List (List Char × List Char × List Char)),
    (dedupAux l seen).Sublist l
  | [], _ => List.Sublist.refl _
  | r :: rest, seen => by
    simp only [dedupAux]
    split
    · exact (dedupAux_sublist rest seen).cons r
    · exact (dedupAux_sublist rest _).cons₂ r

/-- Membership in the deduplication loop output: exactly the records that
occur in the input at a position before which no record shares their key,
and whose key is not in the initial seen set. -/
theorem dedupAux_mem : ∀ (l : List SpmRecord)
    (seen : List (List Char × List Char × List Char)) (r : SpmRecord),
    r ∈ dedupAux l seen ↔
      spmKey r ∉ seen ∧ ∃ l₁ l₂, l = l₁ ++ r :: l₂ ∧ ∀ x ∈ l₁, spmKey x ≠ spmKey r
  | [], seen, r => by
    simp only [dedupAux, List.not_mem_nil, false_iff]
    rintro ⟨-, l₁, l₂, heq, -⟩
    exact (List.append_ne_nil_of_right_ne_nil l₁ (List.cons_ne_nil r l₂)) heq.symm
  | h :: t, seen, r => by
    by_cases hs : spmKey h ∈ seen
    · rw [show dedupAux (h :: t) seen = dedupAux t seen from by simp [dedupAux, hs]]
      rw [dedupAux_mem t seen r]
      constructor
      · rintro ⟨hnr, l₁, l₂, rfl, hcond⟩
        refine ⟨hnr, h :: l₁, l₂, rfl, ?_⟩
        intro x hx
        rcases List.mem_cons.mp hx with rfl | hx2
        · intro hkey
          exact hnr (hkey ▸ hs)
        · exact hcond x hx2
      · rintro ⟨hnr, l₁, l₂, heq, hcond⟩
        rcases l₁ with _ | ⟨h1, l₁t⟩
        · simp only [List.nil_append, List.cons.injEq] at heq
          rcases heq with ⟨rfl, rfl⟩
          exact absurd hs hnr
        · simp only [List.cons_append, List.cons.injEq] at heq
          rcases heq with ⟨rfl, rfl⟩
          exact ⟨hnr, l₁t, l₂, rfl, fun x hx => hcond x (List.mem_cons_of_mem _ hx)⟩
    · rw [show dedupAux (h :: t) seen = h :: dedupAux t (spmKey h :: seen) from by
        simp [dedupAux, hs]]
      rw [List.mem_cons, dedupAux_mem t (spmKey h :: seen) r]
      constructor
      · rintro (rfl | ⟨hnr, l₁, l₂, rfl, hcond⟩)
        · exact ⟨hs, [], t, rfl, by simp⟩
        · have hnr2 : spmKey r ∉ seen := fun hh => hnr (List.mem_cons_of_mem _ hh)
          have hne : spmKey h ≠ spmKey r := fun hh => hnr (hh ▸ List.mem_cons_self _ _)
          refine ⟨hnr2, h :: l₁, l₂, rfl, ?_⟩
          intro x hx
          rcases List.mem_cons.mp hx with rfl | hx2
          · exact hne
          · exact hcond x hx2
      · rintro ⟨hnr, l₁, l₂, heq, hcond⟩
        rcases l₁ with _ | ⟨h1, l₁t⟩
        · simp only [List.nil_append, List.cons.injEq] at heq
          rcases heq with ⟨rfl, rfl⟩
          exact Or.inl rfl
        · simp only [List.cons_append, List.cons.injEq] at heq
          rcases heq with ⟨rfl, rfl⟩
          have hne := hcond h (List.mem_cons_self _ _)
          refine Or.inr ⟨?_, l₁t, l₂, rfl, fun x hx => hcond x (List.mem_cons_of_mem _ hx)⟩
          intro hh
          rcases List.mem_cons.mp hh with hkey | hseen
          · exact hne hkey.symm
          · exact hnr hseen

/-- C4: deduplication keyed on HostNickname, ArrayPort and HostWWPN keeps
exactly the first record of each key in input order and silently drops all
later records with the same key; in particular two records identical in the
three key fields but differing in MonitorKBps collapse to the first one. -/
theorem C4_dedup_first_seen (l : List SpmRecord) :
    (dedupRecords l).Sublist l ∧
    (∀ r, r ∈ dedupRecords l ↔
      ∃ l₁ l₂, l = l₁ ++ r :: l₂ ∧ ∀ x ∈ l₁, spmKey x ≠ spmKey r) ∧
    (∀ r₁ r₂, spmKey r₁ = spmKey r₂ → dedupRecords [r₁, r₂] = [r₁]) := by
  refine ⟨dedupAux_sublist l [], ?_, ?_⟩
  · intro r
    rw [dedupRecords, dedupAux_mem]
    simp
  · intro r₁ r₂ hkey
    simp [dedupRecords, dedupAux, hkey]

/-- C4 witness: two records equal in the three key fields and differing only
in MonitorKBps collapse to the first, and the first is characterised as the
first occurrence of its key. -/
theorem C4_dedup_first_seen_witness :
    spmKey recA = spmKey recB ∧
    dedupRecords [recA, recB] = [recA] ∧
    recA ∈ dedupRecords [recA, recB] :=
  ⟨by decide,
   (C4_dedup_first_seen [recA, recB]).2.2 recA recB (by decide),
   ((C4_dedup_first_seen [recA, recB]).2.1 recA).mpr ⟨[], [recB], rfl, by simp⟩⟩

/-- C2 counterexample: a raw output line with two fields under a three
column header yields no record at all, instead of the record with an empty
third field that the claim predicts; the short line is silently dropped. -/
theorem C2_counterexample :
    parse_csv_content "A,B,C\nx,y".data ',' = [] := by decide

/-- The line splitter never returns an empty list of lines. -/
theorem splitOnChar_ne_nil (sep : Char) : ∀ l : List Char, splitOnChar sep l ≠ []
  | [] => by simp [splitOnChar]
  | c :: cs => by
    simp only [splitOnChar]
    split
    · simp
    · cases h : splitOnChar sep cs <;> simp

/-- C2 amended: the parsers never raise and never pad a line that is shorter
than the header: for every header list, any line with fewer fields than
headers yields no record at all, and every record produced has exactly one
entry per header; parse_csv_content is exactly this per line body mapped
over every line after the header line. Likewise parse_spm_data keeps exactly
the lines with at least four fields, every numeric field whose column is
absent in a kept line is zero, and shorter lines are dropped entirely. -/
theorem C2_short_lines :
    (∀ (headers : List (List Char)) (sep : Char) (line : List Char),
      ((splitOnChar sep line).map stripChars).length < headers.length →
      csvRowOfLine headers sep line = none) ∧
    (∀ (headers : List (List Char)) (sep : Char) (line : List Char) (row : CsvRow),
      csvRowOfLine headers sep line = some row → row.length = headers.length) ∧
    (∀ (content : List Char) (sep : Char),
      parse_csv_content content sep =
        ((splitOnChar '\n' (stripChars content)).drop 1).filterMap
          (csvRowOfLine
            ((splitOnChar sep
              ((splitOnChar '\n' (stripChars content)).headD [])).map stripChars) sep)) ∧
    (∀ (serial : List Char) (now : ℕ) (line : List Char),
      (wsSplit line).length < 4 → spmRowOfLine serial now line = none) ∧
    (∀ (serial : List Char) (now : ℕ) (line : List Char) (r : SpmRow6),
      spmRowOfLine serial now line = some r →
      4 ≤ (wsSplit line).length ∧
      ((wsSplit line).length ≤ 4 → r.MonitorIOps = 0) ∧
      ((wsSplit line).length ≤ 5 → r.MonitorKBps = 0) ∧
      ((wsSplit line).length ≤ 6 → r.SPMLimitKBps = 0) ∧
      ((wsSplit line).length ≤ 7 → r.SPMPriority = 0)) ∧
    (∀ (raw serial : List Char) (now : ℕ),
      parse_spm_data raw serial now =
        ((splitOnChar '\n' (stripChars raw)).drop 1).filterMap
          (spmRowOfLine serial now)) := by
  refine ⟨?_, ?_, ?_, ?_, ?_, ?_⟩
  · intro headers sep line hshort
    simp only [csvRowOfLine]
    split
    · rw [if_neg (by omega)]
    · rfl
  · intro headers sep line row h
    simp only [csvRowOfLine] at h
    split at h
    · split at h
      · simp only [Option.some_inj] at h
        subst h
        simp
      · exact absurd h (by simp)
    · exact absurd h (by simp)
  · intro content sep
    simp only [parse_csv_content]
    rcases hsplit : splitOnChar '\n' (stripChars content) with _ | ⟨hd, tl⟩
    · exact absurd hsplit (splitOnChar_ne_nil _ _)
    · simp
  · intro serial now line hshort
    simp only [spmRowOfLine]
    split
    · rfl
    · rw [if_neg (by omega)]
  · intro serial now line r h
    simp only [spmRowOfLine] at h
    split at h
    · exact absurd h (by simp)
    · split at h
      · rename_i hge
        simp only [Option.some_inj] at h
        subst h
        refine ⟨hge, ?_, ?_, ?_, ?_⟩ <;> intro hle <;>
          exact if_neg (by rintro ⟨hgt, -⟩; omega)
      · exact absurd h (by simp)
  · intro raw serial now
    rfl

/-- C2 amended witness: concrete instances of the universal conjuncts: a two
field line under three headers is dropped; a full line yields one entry per
header; a two field spm line is dropped; a four field spm line is kept with
its absent numeric columns zero. -/
theorem C2_short_lines_witness :
    csvRowOfLine [['A'], ['B'], ['C']] ',' "x,y".data = none ∧
    ([(['A'], ['x']), (['B'], ['y']), (['C'], ['z'])] : CsvRow).length =
      ([['A'], ['B'], ['C']] : List (List Char)).length ∧
    spmRowOfLine "50001".data 7 "a b".data = none ∧
    ({ ArraySerial := "50001".data, ArrayPort := "P1".data,
       HostNickName := "nick".data, HostGroup := "grp".data,
       HostWWPN := "wwpn".data, MonitorIOps := 0, MonitorKBps := 0,
       SPMLimitKBps := 0, SPMPriority := 0, SourceLoadTimeEpoch := 7,
       SourceName := "HostIOLimit".data, HostIOLimitF := [],
       BatchCreateTimeEpoch := 7 } : SpmRow6).MonitorIOps = 0 :=
  ⟨C2_short_lines.1 [['A'], ['B'], ['C']] ',' "x,y".data (by decide),
   C2_short_lines.2.1 [['A'], ['B'], ['C']] ',' "x,y,z".data _ (by decide),
   C2_short_lines.2.2.2.1 "50001".data 7 "a b".data (by decide),
   (C2_short_lines.2.2.2.2.1 "50001".data 7 "P1 nick grp wwpn".data _
     (by decide)).2.1 (by decide)⟩

/-- C7 counterexample: when the remote mkdir step exits non zero,
send_scp_file does not return false: the SystemExit raised inside
run_command escapes the except Exception clause of send_scp_file and the
process exits with code one. -/
theorem C7_counterexample :
    (send_scp_file envScpMkdirFail "usr".data "out/report.csv".data "srv".data
        "/remote".data "key".data).2 = Except.error PyErr.systemExit ∧
    (send_scp_file envScpMkdirFail "usr".data "out/report.csv".data "srv".data
        "/remote".data "key".data).2 ≠ Except.ok false := by
  decide

/-- C7 amended: the delivery issues the remote mkdir, the copy and the
remote presence check in that order and, when all three succeed, returns
whether the file name appears in the remote listing; a non zero exit of any
step instead raises SystemExit from run_command, aborting the process with
only the commands up to the failing step issued, rather than returning
false. -/
theorem C7_delivery (env : Cmd → CmdOut) (user fp server rpath key : List Char) :
    ((env (Cmd.sshMkdir user server rpath key)).exit = 0 →
     (env (Cmd.scpCopy user server rpath key fp)).exit = 0 →
     (env (Cmd.sshLs user server rpath key)).exit = 0 →
      send_scp_file env user fp server rpath key =
        ([Cmd.sshMkdir user server rpath key,
          Cmd.scpCopy user server rpath key fp,
          Cmd.sshLs user server rpath key],
         Except.ok (isInfixB (basenameOf fp)
           (env (Cmd.sshLs user server rpath key)).out))) ∧
    ((env (Cmd.sshMkdir user server rpath key)).exit ≠ 0 →
      send_scp_file env user fp server rpath key =
        ([Cmd.sshMkdir user server rpath key], Except.error PyErr.systemExit)) ∧
    ((env (Cmd.sshMkdir user server rpath key)).exit = 0 →
     (env (Cmd.scpCopy user server rpath key fp)).exit ≠ 0 →
      send_scp_file env user fp server rpath key =
        ([Cmd.sshMkdir user server rpath key,
          Cmd.scpCopy user server rpath key fp],
         Except.error PyErr.systemExit)) ∧
    ((env (Cmd.sshMkdir user server rpath key)).exit = 0 →
     (env (Cmd.scpCopy user server rpath key fp)).exit = 0 →
     (env (Cmd.sshLs user server rpath key)).exit ≠ 0 →
      send_scp_file env user fp server rpath key =
        ([Cmd.sshMkdir user server rpath key,
          Cmd.scpCopy user server rpath key fp,
          Cmd.sshLs user server rpath key],
         Except.error PyErr.systemExit)) := by
  refine ⟨?_, ?_, ?_, ?_⟩
  · intro h1 h2 h3
    simp [send_scp_file, run_command, h1, h2, h3]
  · intro h1
    simp [send_scp_file, run_command, h1]
  · intro h1 h2
    simp [send_scp_file, run_command, h1, h2]
  · intro h1 h2 h3
    simp [send_scp_file, run_command, h1, h2, h3]

/-- C7 amended witness: the success path at a concrete environment whose
listing contains the file name: all three commands are issued in order and
the function returns true. -/
theorem C7_delivery_witness :
    send_scp_file envScpOk "usr".data "out/report.csv".data "srv".data
        "/remote".data "key".data =
      ([Cmd.sshMkdir "usr".data "srv".data "/remote".data "key".data,
        Cmd.scpCopy "usr".data "srv".data "/remote".data "key".data "out/report.csv".data,
        Cmd.sshLs "usr".data "srv".data "/remote".data "key".data],
       Except.ok true) := by
  have h := (C7_delivery envScpOk "usr".data "out/report.csv".data "srv".data
    "/remote".data "key".data).1 (by decide) (by decide) (by decide)
  rw [h]
  decide

/-- C8 counterexample: with a failing login command the run exits with code
one immediately; the only command issued is the login itself, so no logout
is attempted before the process exits, contradicting the claim that a
logout is attempted on every fatal error path. -/
theorem C8_counterexample :
    mainFlow envLoginFail "u".data "p".data 99 "17".data =
      ([Cmd.login "u".data "p".data 99], RunOutcome.exited 1) ∧
    Cmd.logout 99 ∉ (mainFlow envLoginFail "u".data "p".data 99 "17".data).1 := by
  decide

/-- C8 amended: the process never proceeds to discovery without a session: a
failed login exits with code one at once, the login command being the only
command issued, so in particular no discovery and no logout command is
issued; likewise the empty discovery fatal path exits with code one without
attempting a logout. A logout is issued only after the collection stage
completes. -/
theorem C8_fatal_paths (env : Cmd → CmdOut) (u p te : List Char) (inst : ℕ) :
    ((env (Cmd.login u p inst)).exit ≠ 0 →
      mainFlow env u p inst te = ([Cmd.login u p inst], RunOutcome.exited 1) ∧
      Cmd.raidqry inst ∉ (mainFlow env u p inst te).1 ∧
      Cmd.logout inst ∉ (mainFlow env u p inst te).1) ∧
    ((env (Cmd.login u p inst)).exit = 0 →
     (env (Cmd.raidqry inst)).exit = 0 →
     dedupStrings (findSerials none (env (Cmd.raidqry inst)).out) [] = [] →
      mainFlow env u p inst te =
        ([Cmd.login u p inst, Cmd.raidqry inst], RunOutcome.exited 1) ∧
      Cmd.logout inst ∉ (mainFlow env u p inst te).1) := by
  constructor
  · intro h1
    have hm : mainFlow env u p inst te = ([Cmd.login u p inst], RunOutcome.exited 1) := by
      simp [mainFlow, run_command, h1]
    refine ⟨hm, ?_, ?_⟩ <;> rw [hm] <;> simp
  · intro h1 h2 h3
    have hm : mainFlow env u p inst te =
        ([Cmd.login u p inst, Cmd.raidqry inst], RunOutcome.exited 1) := by
      simp [mainFlow, run_command, get_serial_numbers, h1, h2, h3]
    refine ⟨hm, ?_⟩
    rw [hm]
    simp

/-- C8 amended witness: the two fatal paths at concrete environments: a
failing login, and a successful login whose discovery output contains no
serial number token. -/
theorem C8_fatal_paths_witness :
    mainFlow envLoginFail "u".data "p".data 99 "q".data =
      ([Cmd.login "u".data "p".data 99], RunOutcome.exited 1) ∧
    Cmd.raidqry 99 ∉ (mainFlow envLoginFail "u".data "p".data 99 "q".data).1 :=
  ⟨((C8_fatal_paths envLoginFail "u".data "p".data "q".data 99).1 (by decide)).1,
   ((C8_fatal_paths envLoginFail "u".data "p".data "q".data 99).1 (by decide)).2.1⟩

/-- C1: evaluation of process_serial_number at the failing input: when every
query succeeds the array contributes exactly one record, collected from the
first port; when the port level query of the second port exits non zero, the
sys.exit(1) call inside run_command raises SystemExit, which the per serial
except Exception handler does not catch, so the whole array contribution is
lost, including the record already collected from the first port. The claim
that only the failing query contribution is dropped therefore fails on the
code. -/
theorem C1_failure_aborts_array :
    threadContribution envC1good "50001".data 99 "17".data = [recC1] ∧
    process_serial_number envC1bad "50001".data 99 "17".data =
      Except.error PyErr.systemExit ∧
    threadContribution envC1bad "50001".data 99 "17".data = [] := by
  decide
